import Mathlib

/-!
Verification development for the mt-vessels-scraper repository.

The repository has two source files: vessel-scraper.js (the browser
scraping pipeline around scrapeVesselData) and the main script
(scheduler, PostgreSQL persistence, formatVesselData / insertVessel /
updateVessel / saveVesselsToDatabase / runScraper).

We give a shallow embedding of the JavaScript data values and of every
function the claims touch, translated line by line from the source, and
prove the claimed properties about the embedding.
-/

/-- JavaScript number model: a finite value (exact rational), an
infinity, or NaN.  The scraper only produces numbers via numeric string
parsing, for which the rational value is exact on all inputs exercised
here. -/
inductive JNum where
  | fin (q : ℚ)
  | inf (neg : Bool)
  | nan
deriving DecidableEq, Repr

/-- True exactly for NaN, mirroring the JavaScript isNaN test applied to
an already-converted number. -/
def JNum.isNaN : JNum → Bool
  | .nan => true
  | _ => false

/-- JavaScript value model: null, undefined, booleans, numbers, strings,
arrays and (insertion-ordered) objects. -/
inductive JVal where
  | null
  | undefined
  | bool (b : Bool)
  | num (n : JNum)
  | str (s : String)
  | arr (elems : List JVal)
  | obj (props : List (String × JVal))
deriving Repr

/-- JavaScript truthiness: null, undefined, false, 0, NaN and the empty
string are falsy; every other value (including every array and object)
is truthy. -/
def JVal.truthy : JVal → Bool
  | .null => false
  | .undefined => false
  | .bool b => b
  | .num (.fin q) => decide (q ≠ 0)
  | .num (.inf _) => true
  | .num .nan => false
  | .str s => decide (s ≠ "")
  | .arr _ => true
  | .obj _ => true

/-- Property access v.k : returns the stored value on objects and
undefined otherwise.  (Accessing a property of null or undefined throws
in JavaScript; every such access in the source sits inside a try/catch
or behind a truthiness guard, and the observable outcome coincides with
reading undefined, so the embedding returns undefined there too.) -/
def JVal.getProp : JVal → String → JVal
  | .obj props, k =>
    match props.find? (fun kv => kv.1 == k) with
    | some kv => kv.2
    | none => .undefined
  | _, _ => .undefined

/-- Array test, as JavaScript Array.isArray. -/
def JVal.isArray : JVal → Bool
  | .arr _ => true
  | _ => false

/-- Array length; 0 on non-arrays (the source only reads length behind
an isArray guard). -/
def JVal.arrLength : JVal → Nat
  | .arr elems => elems.length
  | _ => 0

/-- First array element, undefined when absent, as JavaScript a[0]. -/
def JVal.elem0 : JVal → JVal
  | .arr (e :: _) => e
  | _ => .undefined

/-- Literal list-prefix test used by the containment scan. -/
def leadsWith : List Char → List Char → Bool
  | [], _ => true
  | _ :: _, [] => false
  | p :: ps, c :: cs => p == c && leadsWith ps cs

/-- Occurrence scan: does the pattern occur at some position? -/
def containsSub (pat : List Char) : List Char → Bool
  | [] => leadsWith pat []
  | c :: tl => leadsWith pat (c :: tl) || containsSub pat tl

/-- Substring containment test, as JavaScript String.prototype.includes. -/
def strContains (s pat : String) : Bool :=
  containsSub pat.data s.data

/-- Endpoint path fragments from the response handler of
scrapeVesselData (vessel-scraper.js lines 58-65). -/
def vesselApiFragments : List String :=
  ["/api/exportAPI", "/en/reports", "/api/exportData", "/exportJSON",
   "/en/vesselDetails", "/en/ais/details", "/api/vd", "/api/exportVessels"]

/-- URL allow-list test of the response handler: the url contains one of
the known endpoint path fragments. -/
def isVesselApiUrl (url : String) : Bool :=
  vesselApiFragments.any (fun frag => strContains url frag)

/-- Vessel-shape predicate of the response handler (vessel-scraper.js
lines 73-76): data is truthy and (data.data is a truthy non-empty array,
or data.vessels is a truthy non-empty array, or data itself is a
non-empty array whose first element has a truthy imo/IMO/mmsi/MMSI
property). -/
def isVesselShaped (data : JVal) : Bool :=
  data.truthy &&
    (((data.getProp "data").truthy && (data.getProp "data").isArray &&
        decide ((data.getProp "data").arrLength > 0)) ||
     ((data.getProp "vessels").truthy && (data.getProp "vessels").isArray &&
        decide ((data.getProp "vessels").arrLength > 0)) ||
     (data.isArray && decide (data.arrLength > 0) &&
        ((data.elem0.getProp "imo").truthy || (data.elem0.getProp "IMO").truthy ||
         (data.elem0.getProp "mmsi").truthy || (data.elem0.getProp "MMSI").truthy)))

/-- One network response event seen by the interceptor: the request url,
the content-type header (empty string when the header is absent, as in
the source's fallback), and the parse result of response.json() ---
none when the body fails to parse as JSON. -/
structure ResponseEvent where
  url : String
  contentType : String
  body : Option JVal

/-- Response handler of scrapeVesselData (vessel-scraper.js lines
55-85), as a state transformer on the captured vesselData slot: on an
allow-listed url with JSON content type and a parsed body that passes
the vessel-shape predicate, the payload overwrites the slot; in every
other case (wrong url, non-JSON content type, parse failure, shape
failure) the slot is left unchanged and the handler returns normally
(errors are caught inside the handler). -/
def handleResponse (vesselData : Option JVal) (e : ResponseEvent) : Option JVal :=
  if isVesselApiUrl e.url then
    if strContains e.contentType "application/json" then
      match e.body with
      | some data => if isVesselShaped data then some data else vesselData
      | none => vesselData
    else vesselData
  else vesselData

/-- The payload an event would deposit in the vesselData slot
independently of the current slot contents: some payload exactly when
the event is allow-listed, JSON, parseable and vessel-shaped. -/
def eventCaptures (e : ResponseEvent) : Option JVal :=
  if isVesselApiUrl e.url && strContains e.contentType "application/json" then
    match e.body with
    | some data => if isVesselShaped data then some data else none
    | none => none
  else none

/-- Interceptor state after a navigation session that observed the given
response events in order, starting from an empty slot. -/
def interceptorResult (events : List ResponseEvent) : Option JVal :=
  events.foldl handleResponse none

/-- Fallback chain of scrapeVesselData after navigation settles
(vessel-scraper.js lines 189, 263, 317): each of the DOM-table,
script-scope and markup-JSON extractors runs only under an
`if (!vesselData)` guard.  The three arguments after the interceptor
slot are the outcomes the respective extractor would produce if invoked
on the current page.  Returns the final vesselData slot together with
one invocation flag per extractor. -/
def extractionPhase (vd0 dom script markup : Option JVal) :
    Option JVal × Bool × Bool × Bool :=
  let domInvoked := vd0.isNone
  let vd1 := if vd0.isNone then dom else vd0
  let scriptInvoked := vd1.isNone
  let vd2 := if vd1.isNone then script else vd1
  let markupInvoked := vd2.isNone
  let vd3 := if vd2.isNone then markup else vd2
  (vd3, domInvoked, scriptInvoked, markupInvoked)

/-- Result of one full scrapeVesselData run, given the intercepted
response events and the outcomes of the three page extractors: the
function returns the final vesselData slot (vessel-scraper.js line 396);
when everything misses, the slot is still whatever the interceptor fold
left in it. -/
def scrapeVesselData (events : List ResponseEvent)
    (dom script markup : Option JVal) : Option JVal :=
  (extractionPhase (interceptorResult events) dom script markup).1

/-! ### String and number primitives used by formatVesselData -/

/-- Drop leading whitespace characters from a character list. -/
def dropWs : List Char → List Char
  | c :: rest => if c.isWhitespace then dropWs rest else c :: rest
  | [] => []

/-- Trim whitespace from both ends of a character list. -/
def trimChars (cs : List Char) : List Char :=
  ((dropWs (dropWs cs).reverse)).reverse

/-- Split off the leading run of decimal digits. -/
def spanDigits : List Char → List Char × List Char
  | c :: rest =>
    if c.isDigit then
      let (ds, r) := spanDigits rest
      (c :: ds, r)
    else ([], c :: rest)
  | [] => ([], [])

/-- Numeric value of a list of decimal digits. -/
def digitsToNat (ds : List Char) : Nat :=
  ds.foldl (fun a c => a * 10 + (c.toNat - 48)) 0

/-- Hexadecimal digit test. -/
def isHexDigit (c : Char) : Bool :=
  c.isDigit || ('a' ≤ c && c ≤ 'f') || ('A' ≤ c && c ≤ 'F')

/-- Split off the leading run of hexadecimal digits. -/
def spanHexDigits : List Char → List Char × List Char
  | c :: rest =>
    if isHexDigit c then
      let (ds, r) := spanHexDigits rest
      (c :: ds, r)
    else ([], c :: rest)
  | [] => ([], [])

/-- Numeric value of one hexadecimal digit. -/
def hexDigitVal (c : Char) : Nat :=
  if c.isDigit then c.toNat - 48
  else if 'a' ≤ c && c ≤ 'f' then c.toNat - 87
  else c.toNat - 55

/-- Numeric value of a list of hexadecimal digits. -/
def hexDigitsToNat (ds : List Char) : Nat :=
  ds.foldl (fun a c => a * 16 + hexDigitVal c) 0

/-- Exact rational value of a decimal literal with integer part,
fractional part and decimal exponent, built with the kernel-computable
core rational constructor. -/
def decToRat (ip fp : List Char) (ex : Int) : ℚ :=
  let mant : Int := (digitsToNat ip * 10 ^ fp.length + digitsToNat fp : Nat)
  if ex ≥ 0 then mkRat (mant * (10 : Int) ^ ex.toNat) (10 ^ fp.length)
  else mkRat mant (10 ^ fp.length * 10 ^ (-ex).toNat)

/-- Literal match: strip the given literal from the front of the list,
or fail. -/
def stripLit : List Char → List Char → Option (List Char)
  | [], cs => some cs
  | l :: ls, c :: cs => if c = l then stripLit ls cs else none
  | _ :: _, [] => none

/-- Parse a mandatory exponent suffix that must consume the whole rest
of the input: sign and at least one digit (the e/E marker has already
been removed).  Used by the full-string Number() conversion. -/
def parseExpFull (cs : List Char) : Option Int :=
  let (neg, cs) :=
    match cs with
    | '-' :: rest => (true, rest)
    | '+' :: rest => (false, rest)
    | _ => (false, cs)
  let (ds, rest) := spanDigits cs
  if ds.isEmpty ∨ ¬ rest.isEmpty then none
  else some (if neg then -(digitsToNat ds : Int) else (digitsToNat ds : Int))

/-- Parse an unsigned decimal literal that must consume the whole input:
digits [. digits] [e sign digits], with at least one mantissa digit.
Returns the exact rational value. -/
def parseDecFull (cs : List Char) : Option ℚ :=
  let (ip, r1) := spanDigits cs
  let (fp, r2) :=
    match r1 with
    | '.' :: rest => spanDigits rest
    | _ => ([], r1)
  if ip.isEmpty ∧ fp.isEmpty then none
  else
    match r2 with
    | [] => some (decToRat ip fp 0)
    | 'e' :: rest => (parseExpFull rest).map (fun ex => decToRat ip fp ex)
    | 'E' :: rest => (parseExpFull rest).map (fun ex => decToRat ip fp ex)
    | _ => none

/-- JavaScript Number() conversion of a string: trim whitespace; the
empty string converts to 0; a hexadecimal 0x literal, an Infinity
literal with optional sign, or a full decimal literal with optional
sign; anything else is NaN.  (Binary/octal 0b/0o literals, which never
occur in scraped vessel fields, are not modelled and fall to NaN.) -/
def jsNumberStr (s : String) : JNum :=
  let cs := trimChars s.data
  match cs with
  | [] => .fin 0
  | '0' :: 'x' :: rest =>
    let (ds, r) := spanHexDigits rest
    if ds.isEmpty ∨ ¬ r.isEmpty then .nan else .fin (mkRat (hexDigitsToNat ds : Int) 1)
  | '0' :: 'X' :: rest =>
    let (ds, r) := spanHexDigits rest
    if ds.isEmpty ∨ ¬ r.isEmpty then .nan else .fin (mkRat (hexDigitsToNat ds : Int) 1)
  | _ =>
    let (neg, cs') :=
      match cs with
      | '-' :: rest => (true, rest)
      | '+' :: rest => (false, rest)
      | _ => (false, cs)
    match stripLit "Infinity".data cs' with
    | some [] => .inf neg
    | some _ => .nan
    | none =>
      match parseDecFull cs' with
      | some q => .fin (if neg then -q else q)
      | none => .nan

/-- Signed digit run after an exponent marker, 0 when no digit follows
(the marker is then ignored by parseFloat). -/
def parseExpSigned (cs : List Char) : Int :=
  let (neg, cs') :=
    match cs with
    | '-' :: rest => (true, rest)
    | '+' :: rest => (false, rest)
    | _ => (false, cs)
  let (ds, _) := spanDigits cs'
  if ds.isEmpty then 0
  else if neg then -(digitsToNat ds : Int) else (digitsToNat ds : Int)

/-- Optional exponent suffix for parseFloat: consumed only when the
e/E marker is followed by an optional sign and at least one digit;
otherwise ignored (trailing garbage is allowed after it). -/
def parseExpLead (cs : List Char) : Int :=
  match cs with
  | 'e' :: rest => parseExpSigned rest
  | 'E' :: rest => parseExpSigned rest
  | _ => 0

/-- JavaScript parseFloat: trim leading whitespace, optional sign, then
the longest numeric literal at the front of the string (Infinity, or
digits [. digits] [exponent]); trailing garbage is ignored; NaN when no
digit is consumed. -/
def jsParseFloatStr (s : String) : JNum :=
  let cs := dropWs s.data
  let (neg, cs') :=
    match cs with
    | '-' :: rest => (true, rest)
    | '+' :: rest => (false, rest)
    | _ => (false, cs)
  match stripLit "Infinity".data cs' with
  | some _ => .inf neg
  | none =>
    let (ip, r1) := spanDigits cs'
    let (fp, r2) :=
      match r1 with
      | '.' :: rest => spanDigits rest
      | _ => ([], r1)
    if ip.isEmpty ∧ fp.isEmpty then .nan
    else
      let q := decToRat ip fp (parseExpLead r2)
      .fin (if neg then -q else q)

/-- JavaScript parseInt with no radix argument: trim leading whitespace,
optional sign, a 0x/0X prefix switching to hexadecimal, then the longest
digit run; trailing garbage is ignored; NaN (none) when no digit is
consumed. -/
def jsParseIntStr (s : String) : Option Int :=
  let cs := dropWs s.data
  let (neg, cs') :=
    match cs with
    | '-' :: rest => (true, rest)
    | '+' :: rest => (false, rest)
    | _ => (false, cs)
  let (hex, cs'') :=
    match cs' with
    | '0' :: 'x' :: rest => (true, rest)
    | '0' :: 'X' :: rest => (true, rest)
    | _ => (false, cs')
  if hex then
    let (ds, _) := spanHexDigits cs''
    if ds.isEmpty then none
    else some (if neg then -(hexDigitsToNat ds : Int) else (hexDigitsToNat ds : Int))
  else
    let (ds, _) := spanDigits cs''
    if ds.isEmpty then none
    else some (if neg then -(digitsToNat ds : Int) else (digitsToNat ds : Int))

/-! ### Calendar arithmetic for Date formatting -/

/-- Civil date (year, month, day) from a count of days since the Unix
epoch, by the standard proleptic-Gregorian algorithm with floor
division. -/
def civilFromDays (z0 : Int) : Int × Int × Int :=
  let z := z0 + 719468
  let era := Int.fdiv z 146097
  let doe := z - era * 146097
  let yoe := Int.fdiv (doe - Int.fdiv doe 1460 + Int.fdiv doe 36524 - Int.fdiv doe 146096) 365
  let y := yoe + era * 400
  let doy := doe - (365 * yoe + Int.fdiv yoe 4 - Int.fdiv yoe 100)
  let mp := Int.fdiv (5 * doy + 2) 153
  let d := doy - Int.fdiv (153 * mp + 2) 5 + 1
  let m := if mp < 10 then mp + 3 else mp - 9
  (if m ≤ 2 then y + 1 else y, m, d)

/-- Days since the Unix epoch of a civil date, inverse of
civilFromDays. -/
def daysFromCivil (y0 m d : Int) : Int :=
  let y := if m ≤ 2 then y0 - 1 else y0
  let era := Int.fdiv y 400
  let yoe := y - era * 400
  let mp := if m > 2 then m - 3 else m + 9
  let doy := Int.fdiv (153 * mp + 2) 5 + d - 1
  let doe := yoe * 365 + Int.fdiv yoe 4 - Int.fdiv yoe 100 + doy
  era * 146097 + doe - 719468

/-- Left-pad a number with zeroes to two digits. -/
def pad2 (n : Nat) : String :=
  if n < 10 then "0" ++ toString n else toString n

/-- Left-pad a number with zeroes to three digits. -/
def pad3 (n : Nat) : String :=
  if n < 10 then "00" ++ toString n
  else if n < 100 then "0" ++ toString n
  else toString n

/-- Left-pad a number with zeroes to four digits. -/
def pad4 (n : Nat) : String :=
  if n < 10 then "000" ++ toString n
  else if n < 100 then "00" ++ toString n
  else if n < 1000 then "0" ++ toString n
  else toString n

/-- Date.prototype.toISOString on a millisecond epoch time, for years
in 0..9999 (the expanded-year formats never arise for vessel data). -/
def msToISO (ms : Int) : String :=
  let day := Int.fdiv ms 86400000
  let msOfDay := (ms - day * 86400000).toNat
  let ymd := civilFromDays day
  let hh := msOfDay / 3600000
  let mi := msOfDay % 3600000 / 60000
  let ss := msOfDay % 60000 / 1000
  let mss := msOfDay % 1000
  pad4 ymd.1.toNat ++ "-" ++ pad2 ymd.2.1.toNat ++ "-" ++ pad2 ymd.2.2.toNat ++
    "T" ++ pad2 hh ++ ":" ++ pad2 mi ++ ":" ++ pad2 ss ++ "." ++ pad3 mss ++ "Z"

/-- Date part (YYYY-MM-DD) of toISOString, i.e.
toISOString().split('T')[0] as used for LAUNCH_DATE. -/
def msToISODate (ms : Int) : String :=
  let day := Int.fdiv ms 86400000
  let ymd := civilFromDays day
  pad4 ymd.1.toNat ++ "-" ++ pad2 ymd.2.1.toNat ++ "-" ++ pad2 ymd.2.2.toNat

/-! ### Date string parsing (model of the V8 new Date(string) parser) -/

/-- Split off the leading run of letters. -/
def spanAlpha : List Char → List Char × List Char
  | c :: rest =>
    if c.isAlpha then
      let (ws, r) := spanAlpha rest
      (c :: ws, r)
    else ([], c :: rest)
  | [] => ([], [])

/-- English month names, lower-cased. -/
def monthNames : List String :=
  ["january", "february", "march", "april", "may", "june", "july",
   "august", "september", "october", "november", "december"]

/-- Month number (1-12) from a month word: the full English name or its
three-letter abbreviation, case-insensitively, as the V8 legacy date
parser accepts. -/
def monthFromName (w : String) : Option Nat :=
  let wl := w.data.map Char.toLower
  (monthNames.findIdx? (fun m => m.data == wl ||
      (decide (wl.length = 3) && (m.data.take 3 == wl)))).map (fun i => i + 1)

/-- Leap year test for the Gregorian calendar. -/
def isLeapYear (y : Int) : Bool :=
  (y % 4 == 0 && y % 100 != 0) || y % 400 == 0

/-- Number of days in a month. -/
def daysInMonth (y : Int) (m : Nat) : Nat :=
  if m = 2 then (if isLeapYear y then 29 else 28)
  else if m = 4 ∨ m = 6 ∨ m = 9 ∨ m = 11 then 30
  else 31

/-- Parse a date in the "MonthName D, YYYY" family (month word,
whitespace, day digits, optional comma, whitespace, 3-4 digit year),
validating the day against the month length; result is the epoch
millisecond count of UTC midnight. -/
def parseMonthNameDate (cs : List Char) : Option Int :=
  let (w, r1) := spanAlpha cs
  match monthFromName (String.mk w) with
  | none => none
  | some m =>
    let r2 := dropWs r1
    if r2.length = r1.length then none
    else
      let (dds, r3) := spanDigits r2
      if dds.isEmpty ∨ dds.length > 2 then none
      else
        let d := digitsToNat dds
        let r4 :=
          match r3 with
          | ',' :: rest => dropWs rest
          | _ => dropWs r3
        let (yds, r5) := spanDigits r4
        if yds.length < 3 ∨ yds.length > 4 ∨ ¬ (dropWs r5).isEmpty then none
        else
          let y : Int := digitsToNat yds
          if 1 ≤ d ∧ d ≤ daysInMonth y m then
            some (daysFromCivil y m d * 86400000)
          else none

/-- Parse an ISO calendar date YYYY-MM-DD (interpreted as UTC midnight),
validating month and day ranges. -/
def parseISODate (cs : List Char) : Option Int :=
  match cs with
  | [y1, y2, y3, y4, h1, m1, m2, h2, d1, d2] =>
    if [y1, y2, y3, y4, m1, m2, d1, d2].all Char.isDigit ∧ h1 = '-' ∧ h2 = '-' then
      let y : Int := digitsToNat [y1, y2, y3, y4]
      let m := digitsToNat [m1, m2]
      let d := digitsToNat [d1, d2]
      if 1 ≤ m ∧ m ≤ 12 ∧ 1 ≤ d ∧ d ≤ daysInMonth y m then
        some (daysFromCivil y m d * 86400000)
      else none
    else none
  | _ => none

/-- Model of new Date(string) returning the epoch millisecond time, or
none for an Invalid Date.  Covers the two format families the scraped
vessel fields exercise (ISO calendar dates and "MonthName D, YYYY"),
with the host timezone taken as UTC; other V8-accepted formats are out
of the data's range and map to Invalid Date here. -/
def jsDateParseMs (s : String) : Option Int :=
  let cs := trimChars s.data
  match parseISODate cs with
  | some ms => some ms
  | none => parseMonthNameDate cs

/-! ### Vessel records and formatVesselData -/

/-- A vessel record: an insertion-ordered mapping from field names to
JavaScript values, with unique keys (JavaScript objects cannot carry a
duplicate key). -/
abbrev Record := List (String × JVal)

/-- Read a field of a record, undefined when absent. -/
def getField (r : Record) (k : String) : JVal :=
  match r.find? (fun kv => kv.1 == k) with
  | some kv => kv.2
  | none => .undefined

/-- Write a field of a record: overwrite in place when the key exists
(JavaScript keeps the original insertion position), append otherwise. -/
def setField (r : Record) (k : String) (v : JVal) : Record :=
  if r.any (fun kv => kv.1 == k) then
    r.map (fun kv => if kv.1 == k then (k, v) else kv)
  else r ++ [(k, v)]

/-- First normalization pass of formatVesselData (lines 143-147): every
field whose value is null or undefined is set to null. -/
def coerceNullUndefined (r : Record) : Record :=
  r.map (fun kv =>
    match kv.2 with
    | .null => (kv.1, JVal.null)
    | .undefined => (kv.1, JVal.null)
    | v => (kv.1, v))

/-- JavaScript ToNumber conversion, as applied by the global isNaN test:
null and false convert to 0, true to 1, strings through the Number()
string grammar.  Arrays and plain objects go through ToPrimitive, which
for the JSON-shaped data at hand yields NaN; the embedding maps them to
NaN directly. -/
def jsToNumber : JVal → JNum
  | .null => .fin 0
  | .undefined => .nan
  | .bool b => .fin (if b then 1 else 0)
  | .num n => n
  | .str s => jsNumberStr s
  | .arr _ => .nan
  | .obj _ => .nan

/-- Truncation toward zero of a rational, as JavaScript parseInt applied
to a finite number. -/
def ratTrunc (q : ℚ) : Int :=
  if q < 0 then Rat.ceil q else Rat.floor q

/-- JavaScript parseInt applied to a vessel field value: strings go
through the string grammar; finite numbers truncate toward zero (their
canonical decimal rendering re-parsed); everything else is NaN. -/
def jsParseIntVal : JVal → Option Int
  | .str s => jsParseIntStr s
  | .num (.fin q) => some (ratTrunc q)
  | _ => none

/-- Largest representable absolute Date time value in milliseconds. -/
def dateRangeMs : Nat := 8640000000000000

/-- Timestamp formatting shared by the ETA_UPDATED and
FIRST_POS_TIMESTAMP branches of formatVesselData (lines 150-160 and
178-188): when the field is truthy and not NaN under ToNumber, parseInt
gives epoch seconds, and the field is rewritten to the ISO string of
that time; when parseInt yields NaN or the time is outside the Date
range, toISOString throws and the catch sets the field to null. -/
def formatEpochField (r : Record) (f : String) : Record :=
  let v := getField r f
  if v.truthy then
    if (jsToNumber v).isNaN then r
    else
      match jsParseIntVal v with
      | some n =>
        if (n * 1000).natAbs ≤ dateRangeMs then
          setField r f (.str (msToISO (n * 1000)))
        else setField r f .null
      | none => setField r f .null
  else r

/-- Model of new Date(value) for a vessel field value: strings go
through the date string parser, finite numbers are epoch milliseconds
truncated toward zero and range-checked, booleans convert to 0/1;
everything else is an Invalid Date. -/
def jsNewDateMs : JVal → Option Int
  | .str s => jsDateParseMs s
  | .num (.fin q) =>
    let n := ratTrunc q
    if n.natAbs ≤ dateRangeMs then some n else none
  | .bool b => some (if b then 1 else 0)
  | _ => none

/-- LAUNCH_DATE branch of formatVesselData (lines 163-175): when truthy,
parse as a date; on success rewrite to the YYYY-MM-DD part of the ISO
string, on failure set to null. -/
def formatLaunchDate (r : Record) : Record :=
  let v := getField r "LAUNCH_DATE"
  if v.truthy then
    match jsNewDateMs v with
    | some ms => setField r "LAUNCH_DATE" (.str (msToISODate ms))
    | none => setField r "LAUNCH_DATE" .null
  else r

/-- The fixed numeric field list of formatVesselData (lines 191-193). -/
def numericFields : List String :=
  ["LAT", "LON", "SPEED", "COURSE", "DRAUGHT_MAX", "DRAUGHT_MIN",
   "LENGTH", "WIDTH", "LENGTH_B_W_PERPENDICULARS", "LENGTH_REGISTERED",
   "DEPTH", "BREADTH_MOULDED", "BREADTH_EXTREME"]

/-- Replace the first comma with a dot, as the source's
String.prototype.replace with a plain string pattern does. -/
def replaceFirstComma : List Char → List Char
  | [] => []
  | c :: rest => if c = ',' then '.' :: rest else c :: replaceFirstComma rest

/-- String version of replaceFirstComma. -/
def replaceCommaStr (s : String) : String :=
  String.mk (replaceFirstComma s.data)

/-- Numeric-field branch of formatVesselData (lines 195-206): when the
field holds a string, first store the comma-replaced string, then store
the parseFloat value of it when that is not NaN; non-string values
(including null) are untouched. -/
def formatNumericField (r : Record) (f : String) : Record :=
  match getField r f with
  | .str s =>
    let s2 := replaceCommaStr s
    match jsParseFloatStr s2 with
    | .nan => setField r f (.str s2)
    | n => setField r f (.num n)
  | _ => r

/-- Full formatVesselData (lines 139-209): null/undefined coercion, the
two epoch timestamp fields, LAUNCH_DATE, then the numeric field list in
order. -/
def formatVesselData (vessel : Record) : Record :=
  let r := coerceNullUndefined vessel
  let r := formatEpochField r "ETA_UPDATED"
  let r := formatLaunchDate r
  let r := formatEpochField r "FIRST_POS_TIMESTAMP"
  numericFields.foldl formatNumericField r

/-! ### JSON.parse model (strict JSON grammar, fuel-bounded) -/

/-- JSON insignificant whitespace. -/
def skipJsonWs : List Char → List Char
  | c :: rest =>
    if c = ' ' ∨ c = '\t' ∨ c = '\n' ∨ c = '\r' then skipJsonWs rest
    else c :: rest
  | [] => []

/-- Consume one expected character. -/
def expectChar (c : Char) : List Char → Option (List Char)
  | x :: rest => if x = c then some rest else none
  | [] => none

/-- Decode a single-character JSON escape. -/
def escChar (e : Char) : Option Char :=
  if e = '"' ∨ e = '\\' ∨ e = '/' then some e
  else if e = 'b' then some (Char.ofNat 8)
  else if e = 'f' then some (Char.ofNat 12)
  else if e = 'n' then some '\n'
  else if e = 'r' then some '\r'
  else if e = 't' then some '\t'
  else none

/-- Parse the remainder of a JSON string after the opening quote:
content characters up to the closing quote, with the standard escapes;
unescaped control characters and an unterminated string fail. -/
def parseJStringRest : List Char → Option (String × List Char)
  | [] => none
  | '"' :: rest => some ("", rest)
  | '\\' :: 'u' :: a :: b :: c2 :: d :: rest =>
    if [a, b, c2, d].all isHexDigit then
      (parseJStringRest rest).map
        (fun p => (String.mk (Char.ofNat (hexDigitsToNat [a, b, c2, d]) :: p.1.data), p.2))
    else none
  | '\\' :: e :: rest =>
    match escChar e with
    | some ch =>
      (parseJStringRest rest).map (fun p => (String.mk (ch :: p.1.data), p.2))
    | none => none
  | '\\' :: [] => none
  | c :: rest =>
    if c.toNat < 32 then none
    else (parseJStringRest rest).map (fun p => (String.mk (c :: p.1.data), p.2))

/-- Integer part of a JSON number: a single 0 or a nonzero-led digit
run. -/
def parseJIntPart : List Char → Option (List Char × List Char)
  | '0' :: rest => some (['0'], rest)
  | c :: rest => if c.isDigit then some (spanDigits (c :: rest)) else none
  | [] => none

/-- Exponent tail of a JSON number (the e/E marker has been consumed):
optional sign and a mandatory digit run. -/
def parseJExpTail (ip fp : List Char) (neg : Bool) (cs : List Char) :
    Option (JVal × List Char) :=
  let (eneg, cs') :=
    match cs with
    | '-' :: rest => (true, rest)
    | '+' :: rest => (false, rest)
    | _ => (false, cs)
  let (ds, rest) := spanDigits cs'
  if ds.isEmpty then none
  else
    let ex : Int := if eneg then -(digitsToNat ds : Int) else (digitsToNat ds : Int)
    let q := decToRat ip fp ex
    some (.num (.fin (if neg then -q else q)), rest)

/-- Fraction and exponent of a JSON number after its integer part. -/
def parseJFracExp (ip : List Char) (neg : Bool) (cs : List Char) :
    Option (JVal × List Char) :=
  let fracParsed : Option (List Char × List Char) :=
    match cs with
    | '.' :: rest =>
      let (ds, r) := spanDigits rest
      if ds.isEmpty then none else some (ds, r)
    | _ => some ([], cs)
  match fracParsed with
  | none => none
  | some (fp, r2) =>
    match r2 with
    | 'e' :: rest => parseJExpTail ip fp neg rest
    | 'E' :: rest => parseJExpTail ip fp neg rest
    | _ =>
      let q := decToRat ip fp 0
      some (.num (.fin (if neg then -q else q)), r2)

/-- A complete JSON number. -/
def parseJNumber (cs : List Char) : Option (JVal × List Char) :=
  let (neg, cs1) :=
    match cs with
    | '-' :: rest => (true, rest)
    | _ => (false, cs)
  match parseJIntPart cs1 with
  | some (ip, rest) => parseJFracExp ip neg rest
  | none => none

/-- Result carrier for the single recursive JSON parser below: a value,
an object member list, or an array element list. -/
inductive JParse where
  | val (v : JVal)
  | members (l : List (String × JVal))
  | elems (l : List JVal)

/-- Mode selector for the JSON parser. -/
inductive JMode where
  | val
  | members
  | elems

/-- JSON parser, structurally recursive on a fuel bound.  Mode val
parses one value; mode members parses a non-empty object member list
consuming the closing brace; mode elems parses a non-empty array
element list consuming the closing bracket.  Every recursive call
strictly decreases the fuel, and each fuel unit spent coincides with at
least one input character consumed per two units, so fuel exceeding
twice the input length never runs out on well-formed input. -/
def parseJ : Nat → JMode → List Char → Option (JParse × List Char)
  | 0, _, _ => none
  | fuel + 1, .val, cs0 =>
    (match skipJsonWs cs0 with
     | [] => none
     | c :: rest =>
       if c = 'n' then (stripLit "ull".data rest).map (fun r => (JParse.val JVal.null, r))
       else if c = 't' then (stripLit "rue".data rest).map (fun r => (JParse.val (JVal.bool true), r))
       else if c = 'f' then (stripLit "alse".data rest).map (fun r => (JParse.val (JVal.bool false), r))
       else if c = '"' then (parseJStringRest rest).map (fun p => (JParse.val (JVal.str p.1), p.2))
       else if c = '{' then
         match skipJsonWs rest with
         | '}' :: r => some (JParse.val (JVal.obj []), r)
         | r =>
           match parseJ fuel .members r with
           | some (JParse.members l, r2) => some (JParse.val (JVal.obj l), r2)
           | _ => none
       else if c = '[' then
         match skipJsonWs rest with
         | ']' :: r => some (JParse.val (JVal.arr []), r)
         | r =>
           match parseJ fuel .elems r with
           | some (JParse.elems l, r2) => some (JParse.val (JVal.arr l), r2)
           | _ => none
       else (parseJNumber (c :: rest)).map (fun p => (JParse.val p.1, p.2)))
  | fuel + 1, .members, cs =>
    (match skipJsonWs cs with
     | '"' :: rest =>
       (match parseJStringRest rest with
        | none => none
        | some (key, r1) =>
          match expectChar ':' (skipJsonWs r1) with
          | none => none
          | some r2 =>
            match parseJ fuel .val r2 with
            | some (JParse.val v, r3) =>
              (match skipJsonWs r3 with
               | ',' :: r4 =>
                 match parseJ fuel .members r4 with
                 | some (JParse.members l, r5) => some (JParse.members ((key, v) :: l), r5)
                 | _ => none
               | '}' :: r4 => some (JParse.members [(key, v)], r4)
               | _ => none)
            | _ => none)
     | _ => none)
  | fuel + 1, .elems, cs =>
    (match parseJ fuel .val cs with
     | some (JParse.val v, r1) =>
       (match skipJsonWs r1 with
        | ',' :: r2 =>
          (match parseJ fuel .elems r2 with
           | some (JParse.elems l, r3) => some (JParse.elems (v :: l), r3)
           | _ => none)
        | ']' :: r2 => some (JParse.elems [v], r2)
        | _ => none)
     | _ => none)

/-- JSON.parse: one value, then only whitespace to the end of input. -/
def jsonParse (cs : List Char) : Option JVal :=
  match parseJ (2 * cs.length + 2) .val cs with
  | some (JParse.val v, rest) => if (skipJsonWs rest).isEmpty then some v else none
  | _ => none

/-! ### Markup-embedded JSON extractor (vessel-scraper.js lines 320-371) -/

/-- Drop characters up to (but not including) the next double quote. -/
def dropNonQuote : List Char → List Char
  | c :: rest => if c = '"' then c :: rest else dropNonQuote rest
  | [] => []

/-- Match the source's key pattern regex at the head of the input:
"KEY" \s* : \s* [ \s* { \s* " [^"]+ " \s* : with the given key.
Greedy matching is exact here because each quantified class excludes the
character that follows it.  Returns the rest of the input after the
match. -/
def matchKeyPattern (key : String) (cs : List Char) : Option (List Char) := do
  let r1 ← stripLit ('"' :: key.data ++ ['"']) cs
  let r2 ← expectChar ':' (dropWs r1)
  let r3 ← expectChar '[' (dropWs r2)
  let r4 ← expectChar '{' (dropWs r3)
  let r5 ← expectChar '"' (dropWs r4)
  match r5 with
  | c :: _ =>
    if c = '"' then none
    else
      let r6 := dropNonQuote r5
      let r7 ← expectChar '"' r6
      expectChar ':' (dropWs r7)
  | [] => none

/-- Position of the first match of the key pattern, scanning left to
right.  This equals the source's html.indexOf(match[0]): the matched
text itself instantiates the pattern, so its first literal occurrence
is exactly the first regex match position. -/
def findPatternPos (key : String) : Nat → List Char → Option Nat
  | _, [] => none
  | i, cs@(_ :: tl) =>
    match matchKeyPattern key cs with
    | some _ => some i
    | none => findPatternPos key (i + 1) tl

/-- The source's bracket-counting loop (lines 335-348): iterate from
startPos, increment on each open brace and decrement on each close
brace, and stop with endPos = i + 1 at the first index i past startPos
where the count is zero; none when the loop exhausts the input without
the break firing (endPos then keeps its initial value startPos). -/
def braceScan : List Char → Nat → Nat → Int → Option Nat
  | [], _, _, _ => none
  | c :: rest, i, startPos, cnt0 =>
    let cnt1 := if c = '{' then cnt0 + 1 else cnt0
    let cnt2 := if c = '}' then cnt1 - 1 else cnt1
    if cnt2 = 0 ∧ i > startPos then some (i + 1)
    else braceScan rest (i + 1) startPos cnt2

/-- One pattern attempt of the HTML JSON fallback: locate the pattern,
run the bracket scan for endPos, take the substring from startPos - 1
to endPos (JavaScript substring clamps the negative start to 0, as
natural subtraction does), JSON-parse it, and accept when the parsed
value is truthy and has a truthy data/vessels/ships/tankers property.
Every other outcome falls through to the next pattern. -/
def tryKeyPattern (html : List Char) (key : String) : Option JVal :=
  match findPatternPos key 0 html with
  | none => none
  | some startPos =>
    let endPos :=
      match braceScan (html.drop startPos) startPos startPos 0 with
      | some e => e
      | none => startPos
    if endPos > startPos then
      let jsonStr := (html.drop (startPos - 1)).take (endPos - (startPos - 1))
      match jsonParse jsonStr with
      | some data =>
        if data.truthy &&
            ((data.getProp "data").truthy || (data.getProp "vessels").truthy ||
             (data.getProp "ships").truthy || (data.getProp "tankers").truthy) then
          some data
        else none
      | none => none
    else none

/-- The four keys of the HTML JSON fallback patterns (lines 324-329). -/
def patternKeys : List String := ["data", "vessels", "ships", "tankers"]

/-- The whole HTML JSON fallback (lines 320-371): try the four patterns
in order and return the first accepted payload. -/
def htmlJsonScan (html : String) : Option JVal :=
  patternKeys.findSome? (tryKeyPattern html.data)

/-! ### Scheduler and concurrency guard (main script lines 16-70, 292-311) -/

/-- Events of the scheduler model.  A tick is one invocation of
runScraper; because there is no await between the isRunning test (line
23) and the assignment isRunning = true (line 28), the test-and-set is
a single atomic step of the JavaScript event loop.  A finish event is
the completion of a started run, successful or not: the finally block
(line 68) runs on both paths and clears the guard. -/
inductive SchedEvent where
  | tick
  | finish (ok : Bool)

/-- Scheduler state: the isRunning guard, the number of live browser
sessions, and the count of logged skips. -/
structure SchedState where
  isRunning : Bool
  activeSessions : Nat
  skips : Nat
deriving DecidableEq, Repr

/-- One scheduler step.  A tick while the guard is held only logs a
skip (runScraper returns at line 25 before any session or transaction
starts); a tick with the guard free sets the guard and starts a
session.  A finish of a live run releases its session and clears the
guard in the finally block. -/
def schedStep (st : SchedState) : SchedEvent → SchedState
  | .tick =>
    if st.isRunning then { st with skips := st.skips + 1 }
    else { st with isRunning := true, activeSessions := st.activeSessions + 1 }
  | .finish _ =>
    if st.activeSessions = 0 then st
    else { isRunning := false, activeSessions := st.activeSessions - 1,
           skips := st.skips }

/-- Initial scheduler state at process start. -/
def initSched : SchedState :=
  { isRunning := false, activeSessions := 0, skips := 0 }

/-- Scheduler state after a sequence of events from process start. -/
def runSched (evs : List SchedEvent) : SchedState :=
  evs.foldl schedStep initSched

/-! ### Credential check of scrapeVesselData (lines 16-26) -/

/-- The error message thrown for missing credentials. -/
def credentialError : String :=
  "MarineTraffic username and password are required"

/-- JavaScript destructuring default: the default value is used exactly
when the destructured property is undefined. -/
def jsDefault (provided fallbackVal : JVal) : JVal :=
  match provided with
  | .undefined => fallbackVal
  | v => v

/-- Entry of scrapeVesselData: resolve username and password from the
options object with the environment variables as destructuring
defaults; when either resolves falsy (absent, undefined, null or the
empty string) throw the credential error.  The check precedes the try
block, so control reaches puppeteer.launch --- modelled by the ok true
result --- only when both credentials are truthy. -/
def scrapeVesselDataEntry (optUser optPass envUser envPass : JVal) :
    Except String Bool :=
  let username := jsDefault optUser envUser
  let password := jsDefault optPass envPass
  if username.truthy && password.truthy then Except.ok true
  else Except.error credentialError

/-! ### Persistence layer (main script lines 76-258) -/

/-- Undefined test on a value. -/
def JVal.isUndefined : JVal → Bool
  | .undefined => true
  | _ => false

/-- SQL equality of two identity values, as the WHERE SHIP_ID = $1
comparison evaluates it: scalar values compare by value; a NULL
parameter matches no row; array or object parameters cannot occur in a
well-typed query and match nothing. -/
def scalarIdEq : JVal → JVal → Bool
  | .str a, .str b => a == b
  | .num a, .num b => a == b
  | .bool a, .bool b => a == b
  | _, _ => false

/-- The vessels_mt table: a list of rows, each an open field mapping. -/
abbrev DB := List Record

/-- Existence check of saveVesselsToDatabase (lines 94-97): some row
whose SHIP_ID equals the given identity value. -/
def existsShip (db : DB) (idv : JVal) : Bool :=
  db.any (fun row => scalarIdEq (getField row "SHIP_ID") idv)

/-- Column list of insertVessel (line 218): every field whose value is
not undefined. -/
def presentRow (v : Record) : Record :=
  v.filter (fun kv => !kv.2.isUndefined)

/-- Column list of updateVessel (lines 237-238): every field whose
value is not undefined, with SHIP_ID excluded. -/
def updateFields (v : Record) : List String :=
  (v.filter (fun kv => !kv.2.isUndefined && kv.1 != "SHIP_ID")).map Prod.fst

/-- Apply the SET clause of updateVessel to one row. -/
def applyUpdateFields (row : Record) (v : Record) : Record :=
  (v.filter (fun kv => !kv.2.isUndefined && kv.1 != "SHIP_ID")).foldl
    (fun r kv => setField r kv.1 kv.2) row

/-- What one record's write did. -/
inductive SaveLog where
  | inserted
  | updated
  | noFieldsToUpdate
deriving DecidableEq, Repr

/-- updateVessel (lines 235-258): with no updatable field beyond
SHIP_ID, log and return without touching the database (the source logs
"No fields to update" and returns normally); otherwise set the listed
fields on every row whose SHIP_ID matches the record's. -/
def updateVessel (db : DB) (v : Record) : DB × SaveLog :=
  if updateFields v = [] then (db, .noFieldsToUpdate)
  else
    (db.map (fun row =>
       if scalarIdEq (getField row "SHIP_ID") (getField v "SHIP_ID") then
         applyUpdateFields row v
       else row),
     .updated)

/-- insertVessel (lines 216-228): append a row with all present
fields. -/
def insertVessel (db : DB) (v : Record) : DB × SaveLog :=
  (db ++ [presentRow v], .inserted)

/-- Per-record body of the saveVesselsToDatabase loop (lines 91-117):
check existence by the raw record's SHIP_ID, normalize, then update or
insert the normalized record. -/
def saveVesselRecord (db : DB) (vessel : Record) : DB × SaveLog :=
  let existed := existsShip db (getField vessel "SHIP_ID")
  let fv := formatVesselData vessel
  if existed then updateVessel db fv else insertVessel db fv

/-- Observable outcome of one batch: database contents and the two
counters of the run log. -/
structure SaveOutcome where
  db : DB
  savedCount : Nat
  errorCount : Nat
deriving Repr

/-- The per-record loop of saveVesselsToDatabase: each item carries the
record and whether its write faults (a thrown query error); a faulting
record is caught by the inner catch (lines 113-116), counted, and the
loop continues with the database unchanged by that record. -/
def processVessels (acc : SaveOutcome) (items : List (Record × Bool)) : SaveOutcome :=
  items.foldl
    (fun acc item =>
      if item.2 then { acc with errorCount := acc.errorCount + 1 }
      else
        { db := (saveVesselRecord acc.db item.1).1,
          savedCount := acc.savedCount + 1,
          errorCount := acc.errorCount })
    acc

/-- saveVesselsToDatabase (lines 76-132): an empty batch returns before
any transaction starts; otherwise the whole batch runs in one
transaction, and a transaction-level fault (modelled at commit, the
only query outside the per-record try) rolls everything back and
rethrows, which the error result represents. -/
def saveVesselsToDatabase (db : DB) (items : List (Record × Bool))
    (txFault : Bool) : Except String SaveOutcome :=
  if items.isEmpty then Except.ok { db := db, savedCount := 0, errorCount := 0 }
  else
    let out := processVessels { db := db, savedCount := 0, errorCount := 0 } items
    if txFault then Except.error "Transaction failed, changes rolled back"
    else Except.ok out

/-- Database contents visible after a batch: the committed contents on
success, the original contents after a rollback. -/
def dbAfterRun (db0 : DB) (res : Except String SaveOutcome) : DB :=
  match res with
  | Except.ok out => out.db
  | Except.error _ => db0

/-! ### Concrete fixtures used in the closed theorems -/

/-- Expected result of the numeric-field branch on a string value: the
dot-for-comma text when parseFloat fails on it, its numeric value
otherwise. -/
def numericResult (s : String) : JVal :=
  if (jsParseFloatStr (replaceCommaStr s)).isNaN then JVal.str (replaceCommaStr s)
  else JVal.num (jsParseFloatStr (replaceCommaStr s))

/-- A vessel-shaped payload as a reports API would return it. -/
def goodPayload : JVal :=
  .obj [("data", .arr [.obj [("imo", .str "9321483"), ("mmsi", .str "235762000")]])]

/-- An allow-listed JSON response carrying the vessel-shaped payload. -/
def goodEvent : ResponseEvent :=
  { url := "https://www.marinetraffic.com/api/exportAPI?v=1",
    contentType := "application/json; charset=utf-8",
    body := some goodPayload }

/-- A payload on an allow-listed endpoint that fails the vessel-shape
predicate. -/
def strayPayload : JVal :=
  .obj [("message", .str "rate limited"), ("code", .num (.fin 429))]

/-- An allow-listed JSON response whose payload fails the vessel-shape
predicate. -/
def strayEvent : ResponseEvent :=
  { url := "https://www.marinetraffic.com/api/exportAPI?v=2",
    contentType := "application/json",
    body := some strayPayload }

/-- The smallest well-formed JSON object enclosing the pattern hit in
the fixture page below (braces written via hex escapes). -/
def recoverableObj : String :=
  "\x7b\x22data\x22:[\x7b\x22imo\x22:\x221234567\x22,\x22mmsi\x22:\x22123456789\x22\x7d]\x7d"

/-- A page markup containing the recoverable vessel JSON object. -/
def vesselPageHtml : String :=
  "<script>var cfg = " ++ recoverableObj ++ ";</script>"

/-! ## Theorems -/

/-- The response handler either overwrites the slot with the payload the
event captures, or leaves the slot untouched. -/
theorem handleResponse_or (vd : Option JVal) (e : ResponseEvent) :
    handleResponse vd e = (eventCaptures e).or vd := by
  rcases hb : e.body with _ | data <;>
    cases hu : isVesselApiUrl e.url <;>
      cases hc : strContains e.contentType "application/json" <;>
        simp [handleResponse, eventCaptures, hu, hc, hb, Option.or]
  cases hs : isVesselShaped data <;> simp [hs]

/-- C3: during one navigation session, a response that is allow-listed,
JSON and vessel-shaped is retained as the current best result and a
later such response overwrites any held result (last matching response
wins); a response that is not allow-listed, not JSON, fails to parse or
fails the shape predicate never changes the held result (and the
handler, a total function, never aborts the session). -/
theorem interceptor_last_match_wins (events : List ResponseEvent)
    (vd : Option JVal) (e : ResponseEvent) :
    ((eventCaptures e).isSome = true →
      List.foldl handleResponse vd (events ++ [e]) = eventCaptures e) ∧
    (eventCaptures e = none →
      List.foldl handleResponse vd (events ++ [e]) =
        List.foldl handleResponse vd events) := by
  constructor
  · intro h
    rw [List.foldl_append, List.foldl_cons, List.foldl_nil, handleResponse_or]
    rcases hc : eventCaptures e with _ | p
    · rw [hc] at h
      cases h
    · simp [Option.or]
  · intro h
    rw [List.foldl_append, List.foldl_cons, List.foldl_nil, handleResponse_or, h]
    simp [Option.or]

/-- Witness for C3 at concrete events: a vessel-shaped response
overwrites the slot even after a stray response, and a stray response
does not disturb a held payload. -/
theorem interceptor_last_match_wins_witness :
    (eventCaptures goodEvent).isSome = true ∧
    List.foldl handleResponse none ([strayEvent] ++ [goodEvent]) = eventCaptures goodEvent ∧
    eventCaptures strayEvent = none ∧
    List.foldl handleResponse (some goodPayload) ([] ++ [strayEvent]) =
      List.foldl handleResponse (some goodPayload) [] :=
  ⟨rfl, (interceptor_last_match_wins [strayEvent] none goodEvent).1 rfl, rfl,
    (interceptor_last_match_wins [] (some goodPayload) strayEvent).2 rfl⟩

/-- C2: each extractor of the fallback chain is invoked exactly when
every earlier stage (interceptor slot included) yielded nothing, so the
first Found short-circuits all later strategies; the chain result is
the first non-empty outcome in order. -/
theorem fallback_chain_short_circuit (vd0 dom script markup : Option JVal) :
    (extractionPhase vd0 dom script markup).1 =
      ((vd0.or dom).or script).or markup ∧
    (extractionPhase vd0 dom script markup).2.1 = vd0.isNone ∧
    (extractionPhase vd0 dom script markup).2.2.1 = (vd0.isNone && dom.isNone) ∧
    (extractionPhase vd0 dom script markup).2.2.2 =
      (vd0.isNone && dom.isNone && script.isNone) := by
  cases vd0 <;> cases dom <;> cases script <;> cases markup <;>
    simp [extractionPhase, Option.or]

/-- C1 (code bug): an allow-listed JSON response whose payload fails the
vessel-shape predicate is never stored by the response handler, so when
every extractor misses, scrapeVesselData returns null rather than the
most recently captured payload --- contradicting the spec and the
source's own comment at lines 377-381 ("This will use the last API
response we captured, even if it wasn't what we were looking for"). -/
theorem no_weak_interceptor_fallback :
    isVesselApiUrl strayEvent.url = true ∧
    strContains strayEvent.contentType "application/json" = true ∧
    isVesselShaped strayPayload = false ∧
    interceptorResult [strayEvent] = none ∧
    scrapeVesselData [strayEvent] none none none = none :=
  ⟨rfl, rfl, rfl, rfl, rfl⟩

/-- C5 (code bug): on a page whose markup contains a well-formed,
recoverable vessel JSON object that the first pattern hits, the bracket
counter of the source breaks at the first index past the match start
(where the count is still zero), so the extracted substring is the
three characters around the opening quote of "data", JSON.parse fails
on it, and the extractor returns nothing --- it can never return
Found. -/
theorem markup_extractor_recovers_nothing :
    strContains vesselPageHtml recoverableObj = true ∧
    (jsonParse recoverableObj.data).isSome = true ∧
    (((jsonParse recoverableObj.data).getD JVal.null).getProp "data").arrLength = 1 ∧
    findPatternPos "data" 0 vesselPageHtml.data = some 19 ∧
    braceScan (vesselPageHtml.data.drop 19) 19 19 0 = some 21 ∧
    String.mk ((vesselPageHtml.data.drop 18).take 3) = "\x7b\x22d" ∧
    htmlJsonScan vesselPageHtml = none :=
  ⟨rfl, rfl, rfl, rfl, rfl, rfl, rfl⟩

/-- C10: when the credentials resolved from the options object with the
environment as destructuring default are not both truthy,
scrapeVesselData throws the credential error before the try block that
launches the browser, so no browser session is acquired. -/
theorem missing_credentials_throw (optUser optPass envUser envPass : JVal)
    (h : ((jsDefault optUser envUser).truthy &&
          (jsDefault optPass envPass).truthy) = false) :
    scrapeVesselDataEntry optUser optPass envUser envPass =
      Except.error credentialError := by
  simp [scrapeVesselDataEntry, h]

/-- Witness for C10: a username given in options but no password
anywhere yields the thrown error. -/
theorem missing_credentials_throw_witness :
    ((jsDefault (JVal.str "alice") JVal.undefined).truthy &&
      (jsDefault JVal.undefined JVal.undefined).truthy) = false ∧
    scrapeVesselDataEntry (JVal.str "alice") JVal.undefined JVal.undefined JVal.undefined =
      Except.error credentialError :=
  ⟨rfl, missing_credentials_throw _ _ _ _ rfl⟩

/-- C7: the normalization test vector of the spec: epoch seconds string
"1700000000" becomes the ISO timestamp, "March 3, 1999" becomes
"1999-03-03", "not a date" becomes null, and "12,5" becomes the number
12.5 (stated via the kernel-computable constructor mkRat, with the
second conjunct identifying it with 25/2). -/
theorem normalization_test_vector :
    formatVesselData
        [("ETA_UPDATED", JVal.str "1700000000"),
         ("LAUNCH_DATE", JVal.str "March 3, 1999"),
         ("SPEED", JVal.str "12,5")] =
      [("ETA_UPDATED", JVal.str "2023-11-14T22:13:20.000Z"),
       ("LAUNCH_DATE", JVal.str "1999-03-03"),
       ("SPEED", JVal.num (JNum.fin (mkRat 25 2)))] ∧
    (mkRat 25 2 : ℚ) = 25 / 2 ∧
    formatVesselData [("LAUNCH_DATE", JVal.str "not a date")] =
      [("LAUNCH_DATE", JVal.null)] :=
  ⟨rfl, by norm_num [Rat.mkRat_eq_div], rfl⟩

/-- C6 counterexample: a numeric field whose string value fails to
parse is not left untouched: the comma has already been replaced by a
dot when the parse attempt happens, and that replaced text is what
remains. -/
theorem numeric_parse_failure_keeps_replaced_text :
    getField (formatVesselData [("SPEED", JVal.str "ab,cd")]) "SPEED" =
      JVal.str "ab.cd" ∧
    JVal.str "ab.cd" ≠ JVal.str "ab,cd" := by
  refine ⟨rfl, fun hc => ?_⟩
  injection hc with h2
  exact absurd h2 (by decide)

/-- Reading an absent key of a one-field record gives undefined. -/
theorem getField_singleton_ne (f g : String) (v : JVal) (h : (f == g) = false) :
    getField [(f, v)] g = JVal.undefined := by
  simp [getField, List.find?, h]

/-- Epoch-field formatting is the identity when the field is absent. -/
theorem formatEpochField_absent (r : Record) (fld : String)
    (h : getField r fld = JVal.undefined) : formatEpochField r fld = r := by
  simp [formatEpochField, h, JVal.truthy]

/-- LAUNCH_DATE formatting is the identity when the field is absent. -/
theorem formatLaunchDate_absent (r : Record)
    (h : getField r "LAUNCH_DATE" = JVal.undefined) : formatLaunchDate r = r := by
  simp [formatLaunchDate, h, JVal.truthy]

/-- Numeric-field processing of a one-field record is the identity on
any other field name. -/
theorem formatNumericField_other (f g : String) (v : JVal)
    (h : (f == g) = false) : formatNumericField [(f, v)] g = [(f, v)] := by
  simp [formatNumericField, getField_singleton_ne f g v h]

/-- Folding the numeric-field processing over names all different from
the record's key changes nothing. -/
theorem foldl_formatNumericField_other (L : List String) (f : String) (v : JVal)
    (h : ∀ g ∈ L, (f == g) = false) :
    L.foldl formatNumericField [(f, v)] = [(f, v)] := by
  induction L with
  | nil => rfl
  | cons g L ih =>
    rw [List.foldl_cons, formatNumericField_other f g v (h g (by simp)),
      ih (fun g2 hg2 => h g2 (by simp [hg2]))]

/-- Numeric-field processing of a one-field string record at its own
key yields the comma-replaced parse result. -/
theorem formatNumericField_self (f s : String) :
    formatNumericField [(f, JVal.str s)] f = [(f, numericResult s)] := by
  cases hp : jsParseFloatStr (replaceCommaStr s) <;>
    simp [formatNumericField, getField, setField, numericResult, JNum.isNaN, hp]

/-- Folding the numeric-field processing over a duplicate-free name
list containing the record's key yields exactly the parse result. -/
theorem foldl_numeric_eval (L : List String) (f s : String)
    (hmem : f ∈ L) (hnd : L.Nodup) :
    L.foldl formatNumericField [(f, JVal.str s)] = [(f, numericResult s)] := by
  induction L with
  | nil => cases hmem
  | cons g L ih =>
    rw [List.foldl_cons]
    by_cases hfg : f = g
    · subst hfg
      rw [formatNumericField_self f s]
      refine foldl_formatNumericField_other L f _ (fun g2 hg2 => ?_)
      have hne : f ≠ g2 := fun he => (List.nodup_cons.mp hnd).1 (he ▸ hg2)
      simp [hne]
    · have hb : (f == g) = false := by simp [hfg]
      rw [formatNumericField_other f g _ hb]
      exact ih ((List.mem_cons.mp hmem).resolve_left hfg) (List.nodup_cons.mp hnd).2


/-- One scheduler step preserves the session-count invariant. -/
theorem schedStep_inv (st : SchedState) (e : SchedEvent)
    (h : st.activeSessions = (if st.isRunning then 1 else 0)) :
    (schedStep st e).activeSessions =
      (if (schedStep st e).isRunning then 1 else 0) := by
  cases e with
  | tick =>
    by_cases hr : st.isRunning <;> simp [schedStep, hr] at h ⊢ <;> omega
  | finish ok =>
    by_cases ha : st.activeSessions = 0
    all_goals by_cases hr : st.isRunning
    all_goals simp [schedStep, ha, hr] at h ⊢
    all_goals omega

/-- The session-count invariant holds along any event sequence. -/
theorem foldl_sched_inv : ∀ (evs : List SchedEvent) (st : SchedState),
    st.activeSessions = (if st.isRunning then 1 else 0) →
    (evs.foldl schedStep st).activeSessions =
      (if (evs.foldl schedStep st).isRunning then 1 else 0)
  | [], _, h => h
  | e :: evs, st, h =>
    foldl_sched_inv evs (schedStep st e) (schedStep_inv st e h)

/-- C4: along every event sequence from process start at most one run
is in flight; a tick that arrives while the guard is held only
increments the skip log and starts no session and no transaction; a
tick with the guard free starts exactly one session; and finishing a
live run clears the guard on both the success and the error path, so
later ticks proceed. -/
theorem single_run_in_flight (evs : List SchedEvent) (st : SchedState) :
    (runSched evs).activeSessions ≤ 1 ∧
    (st.isRunning = true →
      schedStep st SchedEvent.tick = { st with skips := st.skips + 1 }) ∧
    (st.isRunning = false →
      schedStep st SchedEvent.tick =
        { st with isRunning := true, activeSessions := st.activeSessions + 1 }) ∧
    (∀ ok, st.activeSessions ≠ 0 →
      (schedStep st (SchedEvent.finish ok)).isRunning = false) := by
  refine ⟨?_, fun hr => by simp [schedStep, hr], fun hr => by simp [schedStep, hr],
    fun ok ha => by simp [schedStep, ha]⟩
  have h := foldl_sched_inv evs initSched rfl
  unfold runSched
  rw [h]
  split <;> omega

/-- Witness for C4: a tick on a running state only logs the skip, and
a finish on a live run clears the guard. -/
theorem single_run_in_flight_witness :
    (runSched [SchedEvent.tick, SchedEvent.tick, SchedEvent.finish true]).activeSessions ≤ 1 ∧
    schedStep ⟨true, 1, 5⟩ SchedEvent.tick = ⟨true, 1, 6⟩ ∧
    (schedStep ⟨true, 1, 0⟩ (SchedEvent.finish false)).isRunning = false := by
  refine ⟨(single_run_in_flight [SchedEvent.tick, SchedEvent.tick, SchedEvent.finish true] initSched).1,
    ?_, (single_run_in_flight [] ⟨true, 1, 0⟩).2.2.2 false (by decide)⟩
  exact (single_run_in_flight [] (⟨true, 1, 5⟩ : SchedState)).2.1 rfl

/-- Setting one field leaves every other field unchanged (map case
helper over the in-place overwrite). -/
theorem getField_map_set (r : Record) (k2 k : String) (v : JVal)
    (hb : (k2 == k) = false) :
    getField (r.map (fun kv => if kv.1 == k2 then (k2, v) else kv)) k =
      getField r k := by
  induction r with
  | nil => rfl
  | cons kv rest ih =>
    by_cases h1 : (kv.1 == k2) = true
    · have he := eq_of_beq h1
      have h2 : (kv.1 == k) = false := by
        rw [he]
        exact hb
      simp [getField, List.find?, h1, h2, hb] at ih ⊢
      exact ih
    · have h1f : (kv.1 == k2) = false := by
        cases hx : kv.1 == k2
        · rfl
        · exact absurd hx h1
      by_cases h2 : (kv.1 == k) = true
      · simp [getField, List.find?, h1f, h2]
      · have h2f : (kv.1 == k) = false := by
          cases hx : kv.1 == k
          · rfl
          · exact absurd hx h2
        simp [getField, List.find?, h1f, h2f] at ih ⊢
        exact ih

/-- Reading a key at the end of a record: the appended pair is only
seen when the key was absent. -/
theorem getField_append_single (r : Record) (k2 k : String) (v : JVal)
    (hb : (k2 == k) = false) :
    getField (r ++ [(k2, v)]) k = getField r k := by
  induction r with
  | nil => simp [getField, List.find?, hb]
  | cons kv rest ih =>
    by_cases h2 : (kv.1 == k) = true
    · simp [getField, List.find?, h2]
    · have h2f : (kv.1 == k) = false := by
        cases hx : kv.1 == k
        · rfl
        · exact absurd hx h2
      simp [getField, List.find?, h2f] at ih ⊢
      exact ih

/-- Setting a different field never changes the field read. -/
theorem getField_setField_ne (r : Record) (k2 k : String) (v : JVal)
    (h : k2 ≠ k) : getField (setField r k2 v) k = getField r k := by
  have hb : (k2 == k) = false := by simp [h]
  unfold setField
  split
  · exact getField_map_set r k2 k v hb
  · exact getField_append_single r k2 k v hb

/-- Folding field writes whose keys all differ from the read key
changes nothing at that key. -/
theorem foldl_setField_not_mem (kvs : List (String × JVal)) :
    ∀ (row : Record) (k : String), (∀ kv ∈ kvs, kv.1 ≠ k) →
    getField (kvs.foldl (fun r kv => setField r kv.1 kv.2) row) k =
      getField row k := by
  induction kvs with
  | nil => intro row k _; rfl
  | cons kv kvs ih =>
    intro row k h
    rw [List.foldl_cons, ih (setField row kv.1 kv.2) k
        (fun kv2 h2 => h kv2 (List.mem_cons_of_mem kv h2)),
      getField_setField_ne row kv.1 k kv.2 (h kv (List.mem_cons_self kv kvs))]

/-- The partial update touches no field outside its update list. -/
theorem applyUpdateFields_not_mem (row : Record) (v : Record) (k : String)
    (h : k ∉ updateFields v) :
    getField (applyUpdateFields row v) k = getField row k := by
  refine foldl_setField_not_mem _ row k (fun kv hkv => fun he => h ?_)
  unfold updateFields
  exact List.mem_map.mpr ⟨kv, hkv, he⟩

/-- C8: the upsert checks existence by SHIP_ID; an absent record is
inserted with all its present fields; a present record with no
updatable field beyond SHIP_ID is a logged no-op with the database
untouched; a present record is updated in place (row count unchanged,
rows with a different SHIP_ID untouched); and SHIP_ID itself is never
in the update list, while fields outside the update list are never
written. -/
theorem upsert_contract (db : DB) (v : Record) :
    "SHIP_ID" ∉ updateFields (formatVesselData v) ∧
    (existsShip db (getField v "SHIP_ID") = false →
      saveVesselRecord db v =
        (db ++ [presentRow (formatVesselData v)], SaveLog.inserted)) ∧
    (existsShip db (getField v "SHIP_ID") = true →
      updateFields (formatVesselData v) = [] →
      saveVesselRecord db v = (db, SaveLog.noFieldsToUpdate)) ∧
    (existsShip db (getField v "SHIP_ID") = true →
      (saveVesselRecord db v).1.length = db.length ∧
      ∀ row ∈ db,
        scalarIdEq (getField row "SHIP_ID")
          (getField (formatVesselData v) "SHIP_ID") = false →
        row ∈ (saveVesselRecord db v).1) ∧
    (∀ (row : Record) (k : String), k ∉ updateFields (formatVesselData v) →
      getField (applyUpdateFields row (formatVesselData v)) k = getField row k) := by
  refine ⟨?_, ?_, ?_, ?_, fun row k hk => applyUpdateFields_not_mem row _ k hk⟩
  · unfold updateFields
    intro hmem
    rcases List.mem_map.mp hmem with ⟨kv, hkv, hfst⟩
    have := (List.mem_filter.mp hkv).2
    rw [hfst] at this
    simp at this
  · intro h
    simp [saveVesselRecord, h, insertVessel]
  · intro h1 h2
    simp [saveVesselRecord, h1, updateVessel, h2]
  · intro h1
    by_cases h2 : updateFields (formatVesselData v) = []
    · constructor
      · simp [saveVesselRecord, h1, updateVessel, h2]
      · intro row hrow _
        simp [saveVesselRecord, h1, updateVessel, h2]
        exact hrow
    · constructor
      · simp [saveVesselRecord, h1, updateVessel, h2]
      · intro row hrow hne
        simp only [saveVesselRecord, h1, updateVessel, h2, if_true, if_false]
        refine List.mem_map.mpr ⟨row, hrow, ?_⟩
        simp [hne]

/-- Witness for C8: inserting a fresh record into an empty table. -/
theorem upsert_contract_witness :
    existsShip [] (getField [("SHIP_ID", JVal.str "9321483")] "SHIP_ID") = false ∧
    saveVesselRecord [] [("SHIP_ID", JVal.str "9321483")] =
      ([[("SHIP_ID", JVal.str "9321483")]], SaveLog.inserted) :=
  ⟨rfl, (upsert_contract [] [("SHIP_ID", JVal.str "9321483")]).2.1 rfl⟩

/-- Closed form of the per-record loop: every non-faulting record is
upserted in order, every faulting record only increments the error
count, and the two counters account for the whole batch. -/
theorem processVessels_spec (items : List (Record × Bool)) : ∀ acc : SaveOutcome,
    processVessels acc items =
      { db := ((items.filter (fun it => !it.2)).map Prod.fst).foldl
                (fun d r => (saveVesselRecord d r).1) acc.db,
        savedCount := acc.savedCount + (items.filter (fun it => !it.2)).length,
        errorCount := acc.errorCount + (items.filter (fun it => it.2)).length } := by
  induction items with
  | nil => intro acc; simp [processVessels]
  | cons it items ih =>
    intro acc
    rcases it with ⟨r, fl⟩
    cases fl
    · have step : processVessels acc ((r, false) :: items) =
          processVessels { db := (saveVesselRecord acc.db r).1,
                           savedCount := acc.savedCount + 1,
                           errorCount := acc.errorCount } items := by
        simp [processVessels]
      rw [step, ih]
      simp [SaveOutcome.mk.injEq]
      omega
    · have step : processVessels acc ((r, true) :: items) =
          processVessels { acc with errorCount := acc.errorCount + 1 } items := by
        simp [processVessels]
      rw [step, ih]
      simp [SaveOutcome.mk.injEq]
      omega

/-- C9: with no transaction-level fault the batch commits: every
record whose own write faulted is only counted, the others are all
upserted, and the counters cover the batch; a transaction-level fault
on a non-empty batch rolls everything back (the visible database is
the original) and propagates the failure to the caller. -/
theorem batch_transaction_semantics (db : DB) (items : List (Record × Bool)) :
    saveVesselsToDatabase db items false =
      Except.ok
        { db := ((items.filter (fun it => !it.2)).map Prod.fst).foldl
                  (fun d r => (saveVesselRecord d r).1) db,
          savedCount := (items.filter (fun it => !it.2)).length,
          errorCount := (items.filter (fun it => it.2)).length } ∧
    (items ≠ [] →
      saveVesselsToDatabase db items true =
        Except.error "Transaction failed, changes rolled back" ∧
      dbAfterRun db (saveVesselsToDatabase db items true) = db) := by
  constructor
  · by_cases he : items = []
    · subst he
      simp [saveVesselsToDatabase]
    · have hne : items.isEmpty = false := by
        cases items
        · exact absurd rfl he
        · rfl
      simp [saveVesselsToDatabase, hne, processVessels_spec]
  · intro he
    have hne : items.isEmpty = false := by
      cases items
      · exact absurd rfl he
      · rfl
    constructor
    · simp [saveVesselsToDatabase, hne]
    · simp [saveVesselsToDatabase, hne, dbAfterRun]

/-- Witness for C9: a two-record batch with one faulting record still
commits the other, and the same batch under a transaction fault is
rolled back and reported failed. -/
theorem batch_transaction_semantics_witness :
    saveVesselsToDatabase [] [([("SHIP_ID", JVal.str "1")], true),
        ([("SHIP_ID", JVal.str "2")], false)] false =
      Except.ok { db := [[("SHIP_ID", JVal.str "2")]], savedCount := 1, errorCount := 1 } ∧
    saveVesselsToDatabase [] [([("SHIP_ID", JVal.str "1")], true),
        ([("SHIP_ID", JVal.str "2")], false)] true =
      Except.error "Transaction failed, changes rolled back" := by
  constructor
  · have h := (batch_transaction_semantics []
      [([("SHIP_ID", JVal.str "1")], true), ([("SHIP_ID", JVal.str "2")], false)]).1
    exact h
  · exact ((batch_transaction_semantics []
      [([("SHIP_ID", JVal.str "1")], true), ([("SHIP_ID", JVal.str "2")], false)]).2
        (by simp)).1

/-- Reading a record whose head key matches gives the head value. -/
theorem getField_cons_self (k1 : String) (v1 : JVal) (rest : Record)
    (k : String) (h : (k1 == k) = true) :
    getField ((k1, v1) :: rest) k = v1 := by
  unfold getField
  rw [List.find?_cons_of_pos]
  exact h

/-- Reading a record whose head key differs skips the head. -/
theorem getField_cons_ne (k1 : String) (v1 : JVal) (rest : Record)
    (k : String) (h : (k1 == k) = false) :
    getField ((k1, v1) :: rest) k = getField rest k := by
  unfold getField
  rw [List.find?_cons_of_neg]
  simp [h]

/-- Overwriting a present key in place makes it read back the written
value. -/
theorem getField_map_set_self (r : Record) (k : String) (v : JVal)
    (h : r.any (fun kv => kv.1 == k) = true) :
    getField (r.map (fun kv => if kv.1 == k then (k, v) else kv)) k = v := by
  induction r with
  | nil => simp at h
  | cons kv rest ih =>
    rw [List.map_cons]
    by_cases hk : (kv.1 == k) = true
    · simp only [hk, if_true]
      exact getField_cons_self k v _ k (by simp)
    · have hkf : (kv.1 == k) = false := by
        cases hx : kv.1 == k
        · rfl
        · exact absurd hx hk
      simp only [hkf, Bool.false_eq_true, if_false]
      rw [getField_cons_ne kv.1 kv.2 _ k hkf]
      refine ih ?_
      rw [List.any_cons, hkf] at h
      simpa using h

/-- Appending a fresh key makes it read back the appended value. -/
theorem getField_append_self (r : Record) (k : String) (v : JVal)
    (h : r.any (fun kv => kv.1 == k) = false) :
    getField (r ++ [(k, v)]) k = v := by
  induction r with
  | nil => exact getField_cons_self k v [] k (by simp)
  | cons kv rest ih =>
    have hkf : (kv.1 == k) = false := by
      cases hx : kv.1 == k
      · rfl
      · rw [List.any_cons, hx] at h
        simp at h
    rw [List.cons_append, getField_cons_ne kv.1 kv.2 _ k hkf]
    refine ih ?_
    rw [List.any_cons, hkf] at h
    simpa using h

/-- Setting a field makes that field read back the written value. -/
theorem getField_setField_self (r : Record) (k : String) (v : JVal) :
    getField (setField r k v) k = v := by
  unfold setField
  split
  case isTrue h => exact getField_map_set_self r k v h
  case isFalse h =>
    refine getField_append_self r k v ?_
    cases hx : r.any (fun kv => kv.1 == k)
    · rfl
    · exact absurd hx h

/-- Epoch-field formatting never changes a differently named field. -/
theorem formatEpochField_preserves (r : Record) (fld k : String)
    (h : fld ≠ k) :
    getField (formatEpochField r fld) k = getField r k := by
  have hs : ∀ v, getField (setField r fld v) k = getField r k :=
    fun v => getField_setField_ne r fld k v h
  unfold formatEpochField
  dsimp only
  split
  · split
    · rfl
    · split
      · split
        · exact hs _
        · exact hs _
      · exact hs _
  · rfl

/-- LAUNCH_DATE formatting never changes a differently named field. -/
theorem formatLaunchDate_preserves (r : Record) (k : String)
    (h : "LAUNCH_DATE" ≠ k) :
    getField (formatLaunchDate r) k = getField r k := by
  have hs : ∀ v, getField (setField r "LAUNCH_DATE" v) k = getField r k :=
    fun v => getField_setField_ne r "LAUNCH_DATE" k v h
  unfold formatLaunchDate
  dsimp only
  split
  · split
    · exact hs _
    · exact hs _
  · rfl

/-- Numeric-field processing never changes a differently named field. -/
theorem formatNumericField_preserves (r : Record) (g k : String)
    (h : g ≠ k) :
    getField (formatNumericField r g) k = getField r k := by
  have hs : ∀ v, getField (setField r g v) k = getField r k :=
    fun v => getField_setField_ne r g k v h
  unfold formatNumericField
  split
  · dsimp only
    split
    · exact hs _
    · exact hs _
  · rfl

/-- Folding numeric-field processing over names all different from the
read key changes nothing at that key. -/
theorem foldl_numeric_preserves (L : List String) : ∀ (r : Record) (k : String),
    (∀ g ∈ L, g ≠ k) →
    getField (L.foldl formatNumericField r) k = getField r k := by
  induction L with
  | nil => intro r k _; rfl
  | cons g L ih =>
    intro r k h
    rw [List.foldl_cons, ih (formatNumericField r g) k
        (fun g2 h2 => h g2 (List.mem_cons_of_mem g h2)),
      formatNumericField_preserves r g k (h g (List.mem_cons_self g L))]

/-- Numeric-field processing at a field holding a string rewrites it to
the comma-replaced parse result. -/
theorem formatNumericField_at (r : Record) (f s : String)
    (h : getField r f = JVal.str s) :
    getField (formatNumericField r f) f = numericResult s := by
  unfold formatNumericField
  rw [h]
  dsimp only
  cases hp : jsParseFloatStr (replaceCommaStr s) <;>
    simp [numericResult, JNum.isNaN, hp, getField_setField_self]

/-- Folding numeric-field processing over a duplicate-free name list
containing the field of interest evaluates that field to the parse
result. -/
theorem foldl_numeric_getField (L : List String) (f s : String)
    (hnd : L.Nodup) (hmem : f ∈ L) :
    ∀ r : Record, getField r f = JVal.str s →
    getField (L.foldl formatNumericField r) f = numericResult s := by
  induction L with
  | nil => cases hmem
  | cons g L ih =>
    intro r hv
    rw [List.foldl_cons]
    by_cases hfg : f = g
    · subst hfg
      rw [foldl_numeric_preserves L (formatNumericField r f) f
          (fun g2 hg2 => fun he => (List.nodup_cons.mp hnd).1 (he ▸ hg2))]
      exact formatNumericField_at r f s hv
    · exact ih (List.nodup_cons.mp hnd).2
        ((List.mem_cons.mp hmem).resolve_left hfg)
        (formatNumericField r g)
        (by rw [formatNumericField_preserves r g f (fun he => hfg he.symm)]; exact hv)

/-- The null/undefined coercion keeps a string-valued field as it is. -/
theorem coerceNullUndefined_str (r : Record) (f s : String)
    (h : getField r f = JVal.str s) :
    getField (coerceNullUndefined r) f = JVal.str s := by
  induction r with
  | nil => simp [getField, List.find?] at h
  | cons kv rest ih =>
    rcases kv with ⟨k1, v1⟩
    by_cases hk : (k1 == f) = true
    · rw [getField_cons_self k1 v1 rest f hk] at h
      subst h
      exact getField_cons_self k1 (JVal.str s) (coerceNullUndefined rest) f hk
    · have hkf : (k1 == f) = false := by
        cases hx : k1 == f
        · rfl
        · exact absurd hx hk
      rw [getField_cons_ne k1 v1 rest f hkf] at h
      cases v1 <;>
        exact (getField_cons_ne k1 _ (coerceNullUndefined rest) f hkf).trans (ih h)

/-- C6 amended: for every record and every field in the fixed
numeric-field list whose stored value is a string, normalization
replaces the first decimal comma with a dot and parses the result with
parseFloat; the parsed number is kept when parsing succeeds, and
otherwise the field keeps the comma-replaced text --- never null, but
also not the original text when that text contained a comma. -/
theorem numeric_field_normalization (r : Record) (f s : String)
    (h : f ∈ numericFields) (hv : getField r f = JVal.str s) :
    getField (formatVesselData r) f = numericResult s := by
  have hne : ∀ fld : String, fld ∈
      ["ETA_UPDATED", "LAUNCH_DATE", "FIRST_POS_TIMESTAMP"] → fld ≠ f := by
    intro fld hfld he
    subst he
    fin_cases hfld <;> revert h <;> decide
  have hshape : formatVesselData r =
      numericFields.foldl formatNumericField
        (formatEpochField
          (formatLaunchDate
            (formatEpochField (coerceNullUndefined r) "ETA_UPDATED"))
          "FIRST_POS_TIMESTAMP") := rfl
  rw [hshape]
  refine foldl_numeric_getField numericFields f s (by decide) h _ ?_
  rw [formatEpochField_preserves _ _ _ (hne "FIRST_POS_TIMESTAMP" (by simp)),
    formatLaunchDate_preserves _ _ (hne "LAUNCH_DATE" (by simp)),
    formatEpochField_preserves _ _ _ (hne "ETA_UPDATED" (by simp))]
  exact coerceNullUndefined_str r f s hv

/-- Witness for C6 at the spec's own example: SPEED = "12,5" parses to
the number 12.5, inside a record that also carries another field. -/
theorem numeric_field_normalization_witness :
    "SPEED" ∈ numericFields ∧
    getField (formatVesselData
        [("SHIPNAME", JVal.str "EVER GIVEN"), ("SPEED", JVal.str "12,5")])
      "SPEED" = numericResult "12,5" :=
  ⟨by decide,
    numeric_field_normalization
      [("SHIPNAME", JVal.str "EVER GIVEN"), ("SPEED", JVal.str "12,5")]
      "SPEED" "12,5" (by decide) rfl⟩
